import Mathlib

/-!
Shallow embedding of the peer-communication core of `ferris-lab`
(src/src/websocket.rs and src/src/agent.rs): the protocol envelope,
the connection registry, the outbound handshake, the accept-side frame
handler, the relay writers, and the bounded conversation coordinator.
Stateful Rust code is modelled as explicit state passing; network and
LLM effects are modelled as explicit outcome parameters.
-/

namespace FerrisLab

/-- Protocol message union, `enum AgentMessage` in src/src/websocket.rs. -/
inductive AgentMessage where
  | Presence (agent_id : String)
  | PresenceAck (agent_id : String)
  | Ping (agent_id : String) (seq : Nat)
  | Pong (agent_id : String) (seq : Nat)
  | Text (agent_id : String) (content : String)
  | Number (agent_id : String) (value : Nat)
deriving DecidableEq, Repr

/-- `AgentMessage::sender_id` in src/src/websocket.rs. -/
def AgentMessage.sender_id : AgentMessage → String
  | .Presence agent_id => agent_id
  | .PresenceAck agent_id => agent_id
  | .Ping agent_id _ => agent_id
  | .Pong agent_id _ => agent_id
  | .Text agent_id _ => agent_id
  | .Number agent_id _ => agent_id

def AgentMessage.isPresenceAck : AgentMessage → Bool
  | .PresenceAck _ => true
  | _ => false

def AgentMessage.isPing : AgentMessage → Bool
  | .Ping _ _ => true
  | _ => false

/-- True for the two application-level variants (`Text`/`Number`). -/
def AgentMessage.isAppFrame : AgentMessage → Bool
  | .Text _ _ => true
  | .Number _ _ => true
  | _ => false

/-- `enum PeerConnectionResult` in src/src/websocket.rs. -/
inductive PeerConnectionResult where
  | Connected (url : String)
  | Failed (url : String) (reason : String)
deriving DecidableEq, Repr

/-- Set-insert on the list model of a `HashSet<String>`: inserting a
member leaves the set unchanged. -/
def insertSet (x : String) (s : List String) : List String :=
  if s.contains x then s else x :: s

/-- The registry component of `WebSocketServer`: `connected_peers` and
`connected_urls` (both `HashSet<String>` behind locks in the source),
modelled as duplicate-free lists with set semantics. -/
structure WebSocketServerState where
  connected_peers : List String
  connected_urls : List String
deriving DecidableEq, Repr

/-- `WebSocketServer::is_connected_to_url`. -/
def is_connected_to_url (st : WebSocketServerState) (url : String) : Bool :=
  st.connected_urls.contains url

/-- `WebSocketServer::has_peers`. -/
def has_peers (st : WebSocketServerState) : Bool :=
  !st.connected_peers.isEmpty

/-- `WebSocketServer::peer_count`. -/
def peer_count (st : WebSocketServerState) : Nat :=
  st.connected_peers.length

/-- `WebSocketServer::get_peer_ids`. -/
def get_peer_ids (st : WebSocketServerState) : List String :=
  st.connected_peers

/-- The ack-wait loop of `connect_to_peer`: scan the well-formed frames
received in order, stop at the first `PresenceAck` (returning its
`agent_id`), and forward every earlier frame to the incoming delivery
queue. -/
def ack_wait_scan : List AgentMessage → Option String × List AgentMessage
  | [] => (none, [])
  | AgentMessage.PresenceAck pid :: _ => (some pid, [])
  | m :: rest =>
      let r := ack_wait_scan rest
      (r.1, m :: r.2)

/-- How the ack wait ended when no `PresenceAck` arrived: the stream
closed (`read.next()` exhausted), or the 3-second deadline elapsed. -/
inductive AckWaitEnd where
  | streamClosed
  | timedOut
deriving DecidableEq, Repr

/-- Outcome of one outbound connect attempt, abstracting the network:
the 5-second `connect_async` timeout, a transport error, or an open
stream delivering `frames` during the ack wait with `ending` describing
how the wait stopped if no ack was found among them. -/
inductive ConnectOutcome where
  | connectTimeout
  | connectFailed (reason : String)
  | opened (frames : List AgentMessage) (ending : AckWaitEnd)
deriving DecidableEq, Repr

/-- Whether the outcome is one of the failure modes of
`connect_to_peer` (assuming the URL guard did not fire). -/
def ConnectOutcome.fails : ConnectOutcome → Bool
  | .connectTimeout => true
  | .connectFailed _ => true
  | .opened frames _ => (ack_wait_scan frames).1.isNone

/-- The reason string `connect_to_peer` reports for each failure mode. -/
def ConnectOutcome.failReason : ConnectOutcome → String
  | .connectTimeout => "Connection timeout"
  | .connectFailed e => e
  | .opened _ .streamClosed => "Connection closed before handshake"
  | .opened _ .timedOut => "Handshake timeout"

/-- Result of one `connect_to_peer` call: the registry afterwards, the
returned `PeerConnectionResult`, the frames forwarded to the incoming
delivery queue during the ack wait, and whether a socket was opened and
a `Presence` frame written on it. -/
structure ConnectResult where
  state : WebSocketServerState
  result : PeerConnectionResult
  forwarded : List AgentMessage
  sentPresence : Bool
deriving DecidableEq, Repr

/-- `WebSocketServer::connect_to_peer`: guard on `connected_urls`, then
the transport attempt, the `Presence` send, the ack wait, and on ack
success the registration of the peer id and URL. -/
def connect_to_peer (st : WebSocketServerState) (self_id url : String)
    (o : ConnectOutcome) : ConnectResult :=
  if st.connected_urls.contains url then
    ⟨st, .Connected url, [], false⟩
  else
    match o with
    | .connectTimeout => ⟨st, .Failed url "Connection timeout", [], false⟩
    | .connectFailed e => ⟨st, .Failed url e, [], false⟩
    | .opened frames ending =>
        let scan := ack_wait_scan frames
        match scan.1 with
        | some peer_id =>
            ⟨⟨insertSet peer_id st.connected_peers, insertSet url st.connected_urls⟩,
              .Connected url, scan.2, true⟩
        | none =>
            match ending with
            | .streamClosed =>
                ⟨st, .Failed url "Connection closed before handshake", scan.2, true⟩
            | .timedOut =>
                ⟨st, .Failed url "Handshake timeout", scan.2, true⟩

/-- Result of processing one frame in the accept-side loop
`handle_incoming` (src/src/websocket.rs): the peer set afterwards, the
remembered `peer_agent_id`, the frames this step places on the
process-wide broadcast channel, and the frames it forwards to the
incoming delivery queue. -/
structure IncomingStepResult where
  connected_peers : List String
  peer_agent_id : Option String
  broadcastOut : List AgentMessage
  incomingOut : List AgentMessage
deriving DecidableEq, Repr

/-- One iteration of the `handle_incoming` match: `Presence` registers
the peer and broadcasts a `PresenceAck`; `Ping` broadcasts a `Pong`
echoing the sequence number; every other variant is forwarded to the
incoming delivery queue. -/
def handle_incoming_step (self_id : String) (peers : List String)
    (peer_agent_id : Option String) : AgentMessage → IncomingStepResult
  | .Presence pid => ⟨insertSet pid peers, some pid, [.PresenceAck self_id], []⟩
  | .Ping _ seq => ⟨peers, peer_agent_id, [.Pong self_id seq], []⟩
  | m => ⟨peers, peer_agent_id, [], [m]⟩

/-- The accept-side writer task `handle_outgoing`: it first writes its
own `Presence`, then retransmits every frame published on the broadcast
channel. -/
def handle_outgoing (self_id : String) (broadcastLog : List AgentMessage) :
    List AgentMessage :=
  AgentMessage.Presence self_id :: broadcastLog

/-- The writer task spawned by `connect_to_peer` after a successful
handshake: it retransmits every frame published on the broadcast
channel onto its own socket. -/
def connect_writer_forward (broadcastLog : List AgentMessage) : List AgentMessage :=
  broadcastLog

/-- The reader task spawned by `connect_to_peer` after a successful
handshake: every well-formed frame is forwarded to the incoming
delivery queue, with no filtering. -/
def connect_reader_forward (frames : List AgentMessage) : List AgentMessage :=
  frames

/-- `WebSocketServer::take_incoming_receiver`: `Option::take` on the
stored receiver under a write lock. Returns the new stored value and
the call's result. -/
def take_incoming_receiver (st : Option α) : Option α × Option α :=
  (none, st)

/-- Iterated calls of `take_incoming_receiver`, collecting each call's
result. -/
def take_runs (st : Option α) : Nat → List (Option α)
  | 0 => []
  | n + 1 =>
      let r := take_incoming_receiver st
      r.2 :: take_runs r.1 n

/-- `MAX_CONVERSATION_MESSAGES` in src/src/agent.rs. -/
def MAX_CONVERSATION_MESSAGES : Nat := 4

/-- Per-peer conversation state of the coordinator in src/src/agent.rs:
`conversation_counts[peer]`, `conversation_received_counts[peer]`, and
membership of the peer in `conversation_completed`. -/
structure ConvState where
  sent : Nat
  received : Nat
  completed : Bool
deriving DecidableEq, Repr

/-- Fresh conversation state: the maps default to 0 and the peer is not
in `conversation_completed`. -/
def conv0 : ConvState := ⟨0, 0, false⟩

/-- `Agent::maybe_log_conversation_complete`: below either half-budget
threshold it does nothing; otherwise it inserts the peer into the
`completed` set and reports `true` (the log fires) only if the insert
actually added the peer. -/
def maybe_log_conversation_complete (s : ConvState) : ConvState × Bool :=
  if s.sent < MAX_CONVERSATION_MESSAGES / 2
      || s.received < MAX_CONVERSATION_MESSAGES / 2 then (s, false)
  else if s.completed then (s, false)
  else ({ s with completed := true }, true)

/-- The coordinator's view of the LLM backend for one reply attempt:
`ok` when Ollama is enabled, available and `generate` succeeded;
`genError` when enabled and available but `generate` failed; `off` when
disabled or unavailable. -/
inductive LlmReply where
  | ok (text : String)
  | genError (e : String)
  | off
deriving DecidableEq, Repr

/-- Result of handling one incoming `Text` frame: the state afterwards,
the reply frame broadcast (if any), and whether the completion log
fired. -/
structure TextStepResult where
  state : ConvState
  reply : Option AgentMessage
  logged : Bool
deriving DecidableEq, Repr

/-- The `AgentMessage::Text` arm of the coordinator loop in
`Agent::run`: increment the received count; if our sent count already
reached `MAX_CONVERSATION_MESSAGES / 2`, attempt the completion log and
send nothing; otherwise, on a successful LLM reply, increment the sent
count, broadcast the trimmed reply, and re-check completion; on a
failed or unavailable backend, do nothing further. -/
def handle_incoming_text (self_id : String) (llm : LlmReply) (s : ConvState) :
    TextStepResult :=
  let s1 : ConvState := { s with received := s.received + 1 }
  if MAX_CONVERSATION_MESSAGES / 2 ≤ s1.sent then
    let r := maybe_log_conversation_complete s1
    ⟨r.1, none, r.2⟩
  else
    match llm with
    | .ok text =>
        let s2 : ConvState := { s1 with sent := s1.sent + 1 }
        let r := maybe_log_conversation_complete s2
        ⟨r.1, some (.Text self_id text.trim), r.2⟩
    | .genError _ => ⟨s1, none, false⟩
    | .off => ⟨s1, none, false⟩

/-- The greeting branch of `Agent::run`: the opening greeting is
counted against `conversation_counts` for the peer. -/
def greet (s : ConvState) : ConvState :=
  { s with sent := s.sent + 1 }

/-- One per-peer coordinator event: the process sends its opening
greeting, or a `Text` frame from the peer is handled with the given LLM
outcome. -/
inductive ConvEvent where
  | greet
  | text (llm : LlmReply)
deriving DecidableEq, Repr

/-- One coordinator transition for a fixed peer. -/
def conv_step (self_id : String) (s : ConvState) : ConvEvent → ConvState
  | .greet => greet s
  | .text llm => (handle_incoming_text self_id llm s).state

/-- Run the per-peer coordinator over a list of events. -/
def conv_run (self_id : String) (s : ConvState) (evs : List ConvEvent) : ConvState :=
  evs.foldl (conv_step self_id) s

/-- The completion-log flags produced along a run of the per-peer
coordinator. -/
def conv_log_trace (self_id : String) (s : ConvState) : List ConvEvent → List Bool
  | [] => []
  | e :: evs =>
      match e with
      | .greet => false :: conv_log_trace self_id (greet s) evs
      | .text llm =>
          let r := handle_incoming_text self_id llm s
          r.logged :: conv_log_trace self_id r.state evs

/-- Lexicographic comparison of character lists, the order Rust's
`Ord for String` induces (byte order and codepoint order agree on
UTF-8). -/
def charListLt : List Char → List Char → Bool
  | [], [] => false
  | [], _ :: _ => true
  | _ :: _, [] => false
  | a :: as, b :: bs =>
      if a < b then true
      else if b < a then false
      else charListLt as bs

/-- Rust's `<` on `String` (lexicographic `Ord`). -/
def string_lt (a b : String) : Bool :=
  charListLt a.data b.data

/-- The initiator tie-break in `Agent::run`:
`peers.iter().all(|peer| self.config.agent_id < *peer)`. -/
def should_initiate (self_id : String) (peers : List String) : Bool :=
  peers.all (fun peer => string_lt self_id peer)

/-- What the initiation branch of `Agent::run` does. -/
inductive InitAction where
  | greetAll (greeting : String)
  | waitForPeer
  | sendNumber (value : Nat)
  | stay
deriving DecidableEq, Repr

def InitAction.isGreet : InitAction → Bool
  | .greetAll _ => true
  | _ => false

/-- The value drawn by `rand::rng().random_range(1..=1000000)` in
`Agent::send_random_number`, modelled from an arbitrary natural seed as
a sampler onto the closed range. -/
def random_range_1_1000000 (r : Nat) : Nat :=
  1 + r % 1000000

/-- `Agent::send_random_number`: broadcast a `Number` frame with the
sampled value. This path never touches the conversation counts. -/
def send_random_number (self_id : String) (r : Nat) : AgentMessage :=
  AgentMessage.Number self_id (random_range_1_1000000 r)

/-- The initiation branch of `Agent::run` (after `has_peers`): if this
process should initiate and Ollama is enabled and available, generate a
greeting (doing nothing further if generation fails) and broadcast its
trimmed text; else if it should not initiate, wait for the peer; else
if Ollama is disabled, send a random `Number`; else (enabled but
unavailable) do nothing. -/
def initiate (self_id : String) (peers : List String)
    (ollama_enabled ollama_available : Bool) (gen : Except String String)
    (r : Nat) : InitAction :=
  if peers.isEmpty then .stay
  else if should_initiate self_id peers && ollama_enabled && ollama_available then
    match gen with
    | .ok greeting => .greetAll greeting.trim
    | .error _ => .stay
  else if !should_initiate self_id peers then .waitForPeer
  else if !ollama_enabled then .sendNumber (random_range_1_1000000 r)
  else .stay

/-- Effect of the chosen initiation action on the per-peer sent-count
map `conversation_counts`: only the greeting branch increments, and it
increments the entry of every connected peer. -/
def initiate_counts (a : InitAction) (peers : List String)
    (counts : String → Nat) : String → Nat :=
  match a with
  | .greetAll _ => fun p => if peers.contains p then counts p + 1 else counts p
  | _ => counts

/-- Frames broadcast by the chosen initiation action. -/
def initiate_frames (self_id : String) : InitAction → List AgentMessage
  | .greetAll g => [.Text self_id g]
  | .sendNumber v => [.Number self_id v]
  | _ => []

theorem insertSet_contains (x : String) (s : List String) :
    (insertSet x s).contains x = true := by
  unfold insertSet
  split
  · assumption
  · simp

theorem charListLt_asymm :
    ∀ a b : List Char, charListLt a b = true → charListLt b a = true → False
  | [], [], h, _ => by simp [charListLt] at h
  | [], _ :: _, _, h2 => by simp [charListLt] at h2
  | _ :: _, [], h, _ => by simp [charListLt] at h
  | a :: as, b :: bs, h1, h2 => by
      simp only [charListLt] at h1 h2
      by_cases hab : a < b
      · simp [hab, lt_asymm hab] at h2
      · by_cases hba : b < a
        · simp [hab, hba] at h1
        · simp [hab, hba] at h1 h2
          exact charListLt_asymm as bs h1 h2

theorem connect_to_peer_already_connected (st : WebSocketServerState)
    (self url : String) (o : ConnectOutcome) (h : url ∈ st.connected_urls) :
    connect_to_peer st self url o = ⟨st, .Connected url, [], false⟩ := by
  unfold connect_to_peer
  simp [h]

theorem connect_to_peer_success_url_mem (st : WebSocketServerState)
    (self url : String) (frames : List AgentMessage) (ending : AckWaitEnd)
    (pid : String) (hack : (ack_wait_scan frames).1 = some pid) :
    url ∈ (connect_to_peer st self url (.opened frames ending)).state.connected_urls := by
  unfold connect_to_peer
  by_cases hm : url ∈ st.connected_urls
  · simp [hm]
  · simp only [hack]
    simp [hm]
    simpa using insertSet_contains url st.connected_urls

/-- C2: connecting to a URL already in `connected_urls` returns
`Connected` immediately with no registry mutation, no forwarded frames
and no socket opened; consequently a connect that succeeded by
handshake followed by a second connect to the same URL yields
`Connected` both times with no duplicate registration. -/
theorem connect_to_peer_idempotent (st st2 : WebSocketServerState) (self url : String)
    (o o2 : ConnectOutcome) (frames : List AgentMessage) (ending : AckWaitEnd)
    (pid : String) (h : is_connected_to_url st url = true) :
    connect_to_peer st self url o = ⟨st, .Connected url, [], false⟩
    ∧ ((ack_wait_scan frames).1 = some pid →
        connect_to_peer (connect_to_peer st2 self url (.opened frames ending)).state
            self url o2
          = ⟨(connect_to_peer st2 self url (.opened frames ending)).state,
              .Connected url, [], false⟩) := by
  constructor
  · exact connect_to_peer_already_connected st self url o (by simpa [is_connected_to_url] using h)
  · intro hack
    exact connect_to_peer_already_connected _ self url o2
      (connect_to_peer_success_url_mem st2 self url frames ending pid hack)

/-- Witness for C2 at a concrete registry already containing the URL. -/
theorem connect_to_peer_idempotent_witness :
    connect_to_peer ⟨["agent-2"], ["u"]⟩ "agent-1" "u" ConnectOutcome.connectTimeout
      = ⟨⟨["agent-2"], ["u"]⟩, PeerConnectionResult.Connected "u", [], false⟩ :=
  (connect_to_peer_idempotent ⟨["agent-2"], ["u"]⟩ ⟨[], []⟩ "agent-1" "u"
    ConnectOutcome.connectTimeout ConnectOutcome.connectTimeout
    [AgentMessage.PresenceAck "agent-2"] AckWaitEnd.timedOut "agent-2" (by decide)).1

/-- C3: when connecting to a not-yet-connected URL fails (transport
error, connect timeout, handshake timeout, or stream closed before the
`PresenceAck`), `connect_to_peer` returns `Failed` with the matching
reason and mutates neither `connected_peers` nor `connected_urls`, so
`has_peers` is unchanged. -/
theorem connect_to_peer_failure_no_mutation (st : WebSocketServerState)
    (self url : String) (o : ConnectOutcome)
    (hurl : is_connected_to_url st url = false) (hf : o.fails = true) :
    (connect_to_peer st self url o).state = st
    ∧ (connect_to_peer st self url o).result = .Failed url o.failReason
    ∧ has_peers (connect_to_peer st self url o).state = has_peers st := by
  have hm : url ∉ st.connected_urls := by
    simpa [is_connected_to_url] using hurl
  have key : (connect_to_peer st self url o).state = st
      ∧ (connect_to_peer st self url o).result = .Failed url o.failReason := by
    unfold connect_to_peer
    cases o with
    | connectTimeout => simp [hm, ConnectOutcome.failReason]
    | connectFailed e => simp [hm, ConnectOutcome.failReason]
    | opened frames ending =>
        have hnone : (ack_wait_scan frames).1 = none := by
          simpa [ConnectOutcome.fails, Option.isNone_iff_eq_none] using hf
        cases ending <;> simp [hm, hnone, ConnectOutcome.failReason]
  exact ⟨key.1, key.2, by rw [key.1]⟩

/-- Witness for C3: a failed connect from an empty registry leaves
`has_peers` false. -/
theorem connect_to_peer_failure_no_mutation_witness :
    (connect_to_peer ⟨[], []⟩ "agent-1" "u" ConnectOutcome.connectTimeout).state = ⟨[], []⟩
    ∧ (connect_to_peer ⟨[], []⟩ "agent-1" "u" ConnectOutcome.connectTimeout).result
        = PeerConnectionResult.Failed "u" (ConnectOutcome.failReason ConnectOutcome.connectTimeout)
    ∧ has_peers (connect_to_peer ⟨[], []⟩ "agent-1" "u" ConnectOutcome.connectTimeout).state
        = has_peers ⟨[], []⟩ :=
  connect_to_peer_failure_no_mutation ⟨[], []⟩ "agent-1" "u"
    ConnectOutcome.connectTimeout (by decide) (by decide)

theorem take_runs_none (α : Type u) (n : Nat) :
    take_runs (none : Option α) n = List.replicate n none := by
  induction n with
  | zero => rfl
  | succ n ih => simp [take_runs, take_incoming_receiver, ih, List.replicate]

/-- C8: `take_incoming_receiver` has take-once semantics: the first
call on a present receiver returns it and clears the slot, every
subsequent call returns `none`, and along any run at most one call ever
obtains the receiver. -/
theorem take_incoming_receiver_take_once (α : Type) (r : α) (st : Option α) (n : Nat) :
    take_incoming_receiver (some r) = (none, some r)
    ∧ take_incoming_receiver (none : Option α) = (none, none)
    ∧ take_runs (some r) (n + 1) = some r :: List.replicate n none
    ∧ (take_runs st n).countP (fun x => x.isSome) ≤ 1 := by
  refine ⟨rfl, rfl, ?_, ?_⟩
  · simp [take_runs, take_incoming_receiver, take_runs_none]
  · have hz : ∀ m : Nat,
        (List.replicate m (none : Option α)).countP (fun x => x.isSome) = 0 := by
      intro m
      apply List.countP_eq_zero.mpr
      intro a ha
      simp [List.eq_of_mem_replicate ha]
    cases st with
    | none => simp [take_runs_none, hz]
    | some v =>
        cases n with
        | zero => simp [take_runs]
        | succ m =>
            have hrun : take_runs (some v) (m + 1)
                = some v :: List.replicate m none := by
              simp [take_runs, take_incoming_receiver, take_runs_none]
            rw [hrun]
            simp [List.countP_cons, hz]

/-- C6 counterexample: a `Pong` frame received on an accepted inbound
link is forwarded to the application delivery queue, so the queue is
not restricted to `Text`/`Number` frames. -/
theorem delivery_queue_filter_counterexample :
    (handle_incoming_step "agent-1" [] none (.Pong "agent-2" 7)).incomingOut
      = [AgentMessage.Pong "agent-2" 7]
    ∧ (AgentMessage.Pong "agent-2" 7).isAppFrame = false := by
  decide

/-- C6 amended: only `Presence` and `Ping` are intercepted on the
inbound accept path, every other variant reaching the queue; the
outbound ack wait forwards every frame preceding the first
`PresenceAck` whatever its variant; the post-handshake outbound reader
forwards every frame unchanged. -/
theorem delivery_queue_filtering (self : String) (peers : List String)
    (pa : Option String) (m : AgentMessage) (frames : List AgentMessage) :
    (handle_incoming_step self peers pa m).incomingOut
      = (match m with
         | .Presence _ => []
         | .Ping _ _ => []
         | _ => [m])
    ∧ (ack_wait_scan frames).2 = frames.takeWhile (fun f => !f.isPresenceAck)
    ∧ connect_reader_forward frames = frames := by
  refine ⟨?_, ?_, rfl⟩
  · cases m <;> rfl
  · induction frames with
    | nil => rfl
    | cons f rest ih =>
        cases f <;>
          simp [ack_wait_scan, List.takeWhile, AgentMessage.isPresenceAck, ih]

theorem handle_incoming_text_reply_shape (self : String) (llm : LlmReply)
    (s : ConvState) :
    (handle_incoming_text self llm s).reply = none
    ∨ ∃ t : String, (handle_incoming_text self llm s).reply
        = some (AgentMessage.Text self t) := by
  unfold handle_incoming_text
  by_cases h : MAX_CONVERSATION_MESSAGES / 2 ≤ s.sent
  · left; simp [h]
  · cases llm with
    | ok t => right; exact ⟨t.trim, by simp [h]⟩
    | genError e => left; simp [h]
    | off => left; simp [h]

/-- C9: a `Ping` on an accepted inbound link is answered by an
immediate `Pong` carrying the accepting side's identity and the same
sequence number, without touching the registry or the delivery queue;
and no modelled component ever originates a `Ping` itself (accept-side
replies, initiation frames, the random-number probe, conversation
replies and the initial `Presence` of a writer are all non-`Ping`). -/
theorem ping_pong_echo (self pid : String) (seq : Nat) (peers : List String)
    (pa : Option String) (m : AgentMessage) (en av : Bool)
    (gen : Except String String) (r : Nat) (llm : LlmReply) (s : ConvState) :
    handle_incoming_step self peers pa (.Ping pid seq)
      = ⟨peers, pa, [.Pong self seq], []⟩
    ∧ ((handle_incoming_step self peers pa m).broadcastOut.all
        fun f => !f.isPing) = true
    ∧ ((initiate_frames self (initiate self peers en av gen r)).all
        fun f => !f.isPing) = true
    ∧ ((handle_incoming_text self llm s).reply.elim true
        fun f => !f.isPing) = true
    ∧ (send_random_number self r).isPing = false
    ∧ ((handle_outgoing self []).all fun f => !f.isPing) = true := by
  refine ⟨rfl, ?_, ?_, ?_, rfl, rfl⟩
  · cases m <;> rfl
  · cases initiate self peers en av gen r <;>
      simp [initiate_frames, AgentMessage.isPing]
  · rcases handle_incoming_text_reply_shape self llm s with h | ⟨t, h⟩ <;>
      simp [h, AgentMessage.isPing]

/-- C10: the accept-side replies (the `PresenceAck` answering a
`Presence` and the `Pong` answering a `Ping`) are published on the
process-wide broadcast channel, and both kinds of writer task
retransmit every broadcast frame, so these replies go out on every
connected link, not only the triggering one. -/
theorem accept_replies_on_broadcast (self pid : String) (seq : Nat)
    (peers : List String) (pa : Option String) (bs : List AgentMessage)
    (f : AgentMessage) (hf : f ∈ bs) :
    (handle_incoming_step self peers pa (.Presence pid)).broadcastOut
      = [.PresenceAck self]
    ∧ (handle_incoming_step self peers pa (.Ping pid seq)).broadcastOut
      = [.Pong self seq]
    ∧ (handle_incoming_step self peers pa (.Presence pid)).incomingOut = []
    ∧ f ∈ handle_outgoing self bs
    ∧ f ∈ connect_writer_forward bs := by
  refine ⟨rfl, rfl, rfl, ?_, hf⟩
  unfold handle_outgoing
  exact List.mem_cons_of_mem _ hf

/-- Witness for C10 with the ack itself on a concrete broadcast log. -/
theorem accept_replies_on_broadcast_witness :
    (handle_incoming_step "agent-1" [] none (.Presence "agent-2")).broadcastOut
      = [AgentMessage.PresenceAck "agent-1"]
    ∧ (handle_incoming_step "agent-1" [] none (.Ping "agent-2" 3)).broadcastOut
      = [AgentMessage.Pong "agent-1" 3]
    ∧ (handle_incoming_step "agent-1" [] none (.Presence "agent-2")).incomingOut = []
    ∧ AgentMessage.PresenceAck "agent-1"
        ∈ handle_outgoing "agent-1" [AgentMessage.PresenceAck "agent-1"]
    ∧ AgentMessage.PresenceAck "agent-1"
        ∈ connect_writer_forward [AgentMessage.PresenceAck "agent-1"] :=
  accept_replies_on_broadcast "agent-1" "agent-2" 3 [] none
    [AgentMessage.PresenceAck "agent-1"] (AgentMessage.PresenceAck "agent-1")
    (by simp)

theorem maybe_log_counts (s : ConvState) :
    (maybe_log_conversation_complete s).1.sent = s.sent
    ∧ (maybe_log_conversation_complete s).1.received = s.received := by
  unfold maybe_log_conversation_complete
  split
  · exact ⟨rfl, rfl⟩
  · split
    · exact ⟨rfl, rfl⟩
    · exact ⟨rfl, rfl⟩

theorem maybe_log_completed (s : ConvState) :
    (maybe_log_conversation_complete s).1.completed
      = (s.completed || (maybe_log_conversation_complete s).2) := by
  unfold maybe_log_conversation_complete
  split
  · simp
  · split
    · simp_all
    · simp_all

theorem maybe_log_flag_not_completed (s : ConvState) :
    (maybe_log_conversation_complete s).2 = true → s.completed = false := by
  unfold maybe_log_conversation_complete
  split
  · simp
  · split
    · simp
    · intro _
      simp_all

theorem handle_incoming_text_logged_not_completed (self : String) (llm : LlmReply)
    (s : ConvState) :
    (handle_incoming_text self llm s).logged = true →
      s.completed = false := by
  unfold handle_incoming_text
  by_cases hc : MAX_CONVERSATION_MESSAGES / 2 ≤ s.sent
  · intro h
    have h2 := maybe_log_flag_not_completed
      { s with received := s.received + 1 } (by simpa [hc] using h)
    simpa using h2
  · cases llm with
    | ok t =>
        intro h
        have h2 := maybe_log_flag_not_completed
          { sent := s.sent + 1, received := s.received + 1, completed := s.completed }
          (by simpa [hc] using h)
        simpa using h2
    | genError e => simp [hc]
    | off => simp [hc]

theorem handle_incoming_text_received (self : String) (llm : LlmReply)
    (s : ConvState) :
    (handle_incoming_text self llm s).state.received = s.received + 1 := by
  unfold handle_incoming_text
  by_cases hc : MAX_CONVERSATION_MESSAGES / 2 ≤ s.sent
  · simp [hc, (maybe_log_counts _).2]
  · cases llm <;> simp [hc, (maybe_log_counts _).2]

theorem handle_incoming_text_budget_exhausted (self : String) (llm : LlmReply)
    (s : ConvState) (h : MAX_CONVERSATION_MESSAGES / 2 ≤ s.sent) :
    (handle_incoming_text self llm s).reply = none
    ∧ (handle_incoming_text self llm s).state.sent = s.sent := by
  unfold handle_incoming_text
  simp [h, (maybe_log_counts _).1]

theorem handle_incoming_text_sent_le (self : String) (llm : LlmReply)
    (s : ConvState) (h : s.sent ≤ MAX_CONVERSATION_MESSAGES / 2) :
    (handle_incoming_text self llm s).state.sent
      ≤ MAX_CONVERSATION_MESSAGES / 2 := by
  unfold handle_incoming_text
  by_cases hc : MAX_CONVERSATION_MESSAGES / 2 ≤ s.sent
  · simpa [hc, (maybe_log_counts _).1] using h
  · have hM : MAX_CONVERSATION_MESSAGES / 2 = 2 := rfl
    rw [hM] at hc h ⊢
    cases llm with
    | ok t =>
        have h1 : s.sent + 1 ≤ 2 := by omega
        simp only [hM]
        simpa [hc, (maybe_log_counts _).1] using h1
    | genError e => simp only [hM]; simpa [hc] using h
    | off => simp only [hM]; simpa [hc] using h

theorem handle_incoming_text_completed (self : String) (llm : LlmReply)
    (s : ConvState) :
    (handle_incoming_text self llm s).state.completed
      = (s.completed || (handle_incoming_text self llm s).logged) := by
  unfold handle_incoming_text
  by_cases hc : MAX_CONVERSATION_MESSAGES / 2 ≤ s.sent
  · simpa [hc] using maybe_log_completed _
  · cases llm with
    | ok t => simpa [hc] using maybe_log_completed _
    | genError e => simp [hc]
    | off => simp [hc]

theorem conv_run_cons (self : String) (s : ConvState) (e : ConvEvent)
    (evs : List ConvEvent) :
    conv_run self s (e :: evs) = conv_run self (conv_step self s e) evs := rfl

theorem conv_run_texts_sent_le (self : String) (llms : List LlmReply)
    (s : ConvState) (h : s.sent ≤ MAX_CONVERSATION_MESSAGES / 2) :
    (conv_run self s (llms.map ConvEvent.text)).sent
      ≤ MAX_CONVERSATION_MESSAGES / 2 := by
  induction llms generalizing s with
  | nil => simpa [conv_run] using h
  | cons l ls ih =>
      rw [List.map_cons, conv_run_cons]
      exact ih _ (handle_incoming_text_sent_le self l s h)

/-- C1: handling a `Text` always increments the received count; once
the sent count has reached `MAX_CONVERSATION_MESSAGES / 2 = 2` no reply
is produced and the sent count stays put; along any trace of an
optional opening greeting followed by incoming texts the per-peer sent
count never exceeds 2; and the concrete full B=4 exchange leaves both
sides with `sent_count` exactly 2. -/
theorem conversation_budget (self : String) (llms : List LlmReply)
    (s s2 : ConvState) (llm llm2 : LlmReply)
    (hs : MAX_CONVERSATION_MESSAGES / 2 ≤ s.sent) :
    (conv_run self conv0 (ConvEvent.greet :: llms.map ConvEvent.text)).sent
        ≤ MAX_CONVERSATION_MESSAGES / 2
    ∧ (conv_run self conv0 (llms.map ConvEvent.text)).sent
        ≤ MAX_CONVERSATION_MESSAGES / 2
    ∧ (handle_incoming_text self llm2 s2).state.received = s2.received + 1
    ∧ (handle_incoming_text self llm s).reply = none
    ∧ (handle_incoming_text self llm s).state.sent = s.sent
    ∧ conv_run "agent-1" conv0
        [ConvEvent.greet, ConvEvent.text (.ok "r1"), ConvEvent.text (.ok "r2")]
        = ⟨2, 2, true⟩
    ∧ conv_run "agent-2" conv0
        [ConvEvent.text (.ok "g"), ConvEvent.text (.ok "r1")]
        = ⟨2, 2, true⟩ := by
  refine ⟨?_, ?_, handle_incoming_text_received self llm2 s2,
    (handle_incoming_text_budget_exhausted self llm s hs).1,
    (handle_incoming_text_budget_exhausted self llm s hs).2,
    by decide, by decide⟩
  · rw [conv_run_cons]
    exact conv_run_texts_sent_le self llms (conv_step self conv0 ConvEvent.greet)
      (by norm_num [conv_step, greet, conv0, MAX_CONVERSATION_MESSAGES])
  · exact conv_run_texts_sent_le self llms conv0
      (by norm_num [conv0, MAX_CONVERSATION_MESSAGES])

/-- Witness for C1: with the budget already spent, a further text gets
no reply. -/
theorem conversation_budget_witness :
    (handle_incoming_text "agent-1" (LlmReply.ok "x") ⟨2, 0, false⟩).reply = none :=
  (conversation_budget "agent-1" [] ⟨2, 0, false⟩ conv0 (LlmReply.ok "x")
    LlmReply.off (by decide)).2.2.2.1

theorem conv_log_trace_count_le (self : String) (evs : List ConvEvent)
    (s : ConvState) :
    (conv_log_trace self s evs).count true ≤ if s.completed then 0 else 1 := by
  induction evs generalizing s with
  | nil => simp [conv_log_trace]
  | cons e rest ih =>
      cases e with
      | greet =>
          have h := ih (greet s)
          have hg : (greet s).completed = s.completed := rfl
          rw [hg] at h
          simpa [conv_log_trace, List.count_cons] using h
      | text llm =>
          have h := ih (handle_incoming_text self llm s).state
          have hc := handle_incoming_text_completed self llm s
          simp only [conv_log_trace, List.count_cons]
          cases hL : (handle_incoming_text self llm s).logged with
          | false =>
              rw [hL, Bool.or_false] at hc
              rw [hc] at h
              simpa using h
          | true =>
              have hsc : s.completed = false :=
                handle_incoming_text_logged_not_completed self llm s hL
              rw [hL, Bool.or_true] at hc
              rw [hc] at h
              simp only [if_true] at h
              have hcount :
                  (conv_log_trace self (handle_incoming_text self llm s).state
                    rest).count true = 0 := Nat.le_zero.mp h
              simp [hsc, hL, hcount]

/-- C5: starting from the fresh conversation state, the completion log
fires at most once for a peer along any trace of coordinator events,
and `maybe_log_conversation_complete` touches only the `completed`
flag, sending no frame and leaving both counters unchanged. -/
theorem completion_notification_once (self : String) (evs : List ConvEvent)
    (s : ConvState) :
    (conv_log_trace self conv0 evs).count true ≤ 1
    ∧ (maybe_log_conversation_complete s).1.sent = s.sent
    ∧ (maybe_log_conversation_complete s).1.received = s.received := by
  refine ⟨?_, (maybe_log_counts s).1, (maybe_log_counts s).2⟩
  have h := conv_log_trace_count_le self evs conv0
  simpa [conv0] using h

/-- C4 counterexample: with identities agent-1 and agent-2 and the LLM
backend disabled, agent-1 sorts strictly below its only peer yet does
not send the opening greeting (it sends a `Number` probe instead), so
greeting strictly-less-than-all-peers is not an if-and-only-if. -/
theorem initiator_selection_counterexample :
    should_initiate "agent-1" ["agent-2"] = true
    ∧ (initiate "agent-1" ["agent-2"] false false (Except.ok "hello") 0).isGreet
        = false := by
  decide

/-- C4 amended: the opening greeting is sent only if the process's
identity sorts strictly below every connected peer's, so at most one
side of any pair ever initiates; and when the LLM backend is enabled
and available and greeting generation succeeds, with peers present, the
greeting is sent iff the process sorts strictly below all peers, the
greeting being counted against the sent count of every connected
peer. -/
theorem initiator_selection (self a b g : String) (peers : List String)
    (en av : Bool) (gen : Except String String) (r : Nat)
    (counts : String → Nat) (p : String)
    (hne : peers.isEmpty = false) (hen : en = true) (hav : av = true) :
    ((initiate self peers en av gen r).isGreet = true
        → should_initiate self peers = true)
    ∧ initiate self peers en av (Except.ok g) r
        = (if should_initiate self peers then InitAction.greetAll g.trim
           else InitAction.waitForPeer)
    ∧ initiate_counts (InitAction.greetAll g) peers counts p
        = (if peers.contains p then counts p + 1 else counts p)
    ∧ (should_initiate a [b] = true → should_initiate b [a] = true → False) := by
  subst hen hav
  refine ⟨?_, ?_, rfl, ?_⟩
  · intro hg
    by_cases hsi : should_initiate self peers
    · exact hsi
    · exfalso
      unfold initiate at hg
      by_cases hne2 : peers.isEmpty <;>
        simp [hne2, hsi, InitAction.isGreet] at hg
  · unfold initiate
    by_cases hsi : should_initiate self peers
    · simp [hne, hsi]
    · simp [hne, hsi]
  · intro h1 h2
    simp [should_initiate, string_lt] at h1 h2
    exact charListLt_asymm _ _ h1 h2

/-- Witness for C4: the smaller of two concrete identities greets when
the backend works. -/
theorem initiator_selection_witness :
    initiate "agent-1" ["agent-2"] true true (Except.ok "hello") 0
      = (if should_initiate "agent-1" ["agent-2"]
         then InitAction.greetAll "hello".trim else InitAction.waitForPeer) :=
  (initiator_selection "agent-1" "x" "y" "hello" ["agent-2"] true true
    (Except.ok "z") 0 (fun _ => 0) "p" (by decide) rfl rfl).2.1

/-- C7 counterexample: with the LLM backend enabled but unavailable,
the initiating side sends nothing at all — no `Number` frame is
substituted, contradicting the claim for the unavailable case. -/
theorem number_fallback_counterexample :
    should_initiate "agent-1" ["agent-2"] = true
    ∧ initiate "agent-1" ["agent-2"] true false (Except.ok "hi") 0
        = InitAction.stay := by
  decide

/-- C7 amended: when the LLM backend is disabled and the process is the
initiator with peers present, it sends a single `Number` frame whose
value lies in [1, 1000000] and no conversation count changes; when the
backend is enabled but unavailable, nothing is sent at all. -/
theorem number_fallback (self : String) (peers : List String) (av : Bool)
    (gen : Except String String) (r : Nat) (counts : String → Nat) (p : String)
    (hne : peers.isEmpty = false) (hinit : should_initiate self peers = true) :
    initiate self peers false av gen r
      = InitAction.sendNumber (random_range_1_1000000 r)
    ∧ send_random_number self r
      = AgentMessage.Number self (random_range_1_1000000 r)
    ∧ 1 ≤ random_range_1_1000000 r
    ∧ random_range_1_1000000 r ≤ 1000000
    ∧ initiate_counts (InitAction.sendNumber (random_range_1_1000000 r))
        peers counts p = counts p
    ∧ initiate self peers true false gen r = InitAction.stay := by
  refine ⟨?_, rfl, ?_, ?_, rfl, ?_⟩
  · unfold initiate
    simp [hne, hinit]
  · unfold random_range_1_1000000
    omega
  · unfold random_range_1_1000000
    have h := Nat.mod_lt r (show 0 < 1000000 by norm_num)
    omega
  · unfold initiate
    simp [hne, hinit]

/-- Witness for C7 at concrete identities and seed. -/
theorem number_fallback_witness :
    initiate "agent-1" ["agent-2"] false true (Except.ok "hi") 41
      = InitAction.sendNumber (random_range_1_1000000 41) :=
  (number_fallback "agent-1" ["agent-2"] true (Except.ok "hi") 41
    (fun _ => 0) "q" (by decide) (by decide)).1

end FerrisLab
